import Mathlib

/-!
Verification of the AjaxSecurFlow gateway core: a shallow embedding of the
session/token lifecycle manager, the response cache, the global admission
controller and the identity-token guard, translated from
`backend/app/services/ajax_client.py`, `backend/app/services/ajax_cache.py`,
`backend/app/services/global_rate_limiter.py` (identical logic in
`backend/app/shared/infrastructure/redis/rate_limiter.py`),
`backend/app/modules/auth/service.py` and `backend/app/modules/auth/router.py`.

Machine integers do not overflow in any of the embedded code paths (counters
stay tiny), so counters are `Int`/`Nat`; wall-clock values returned by
`time.time()` / `datetime.timestamp()` are modelled as `ℚ` (arbitrary-precision
point values, matching the sub-second resolution the Python code observes);
fallible calls return `Except`/`Option`.
-/

/-! ## JSON values and Python-dict semantics

Upstream payloads are JSON dictionaries.  `JVal.null` doubles as Python's
`None` (exactly as `json.loads` maps JSON `null` to `None`).  Dictionaries are
association lists with first-match lookup and in-place replacement on update,
which reproduces Python-dict semantics on inputs whose keys are unique. -/

inductive JVal : Type where
  | null : JVal
  | bool : Bool → JVal
  | str : String → JVal
  | int : Int → JVal
  | arr : List JVal → JVal
  | obj : List (String × JVal) → JVal

abbrev JRec := List (String × JVal)

/-- Python `x is None`. -/
def JVal.isNull : JVal → Bool
  | .null => true
  | _ => false

/-- First-match lookup, `none` when the key is absent (Python `k in d` / `d[k]`). -/
def dGet (r : JRec) (k : String) : Option JVal :=
  match r with
  | [] => none
  | (k2, v) :: rest => if k2 = k then some v else dGet rest k

/-- Python `d.get(k)`: `None` both when absent and when stored `None`. -/
def dGetD (r : JRec) (k : String) : JVal :=
  (dGet r k).getD JVal.null

/-- Python `k in d`. -/
def dHas (r : JRec) (k : String) : Bool :=
  (dGet r k).isSome

/-- Python `d[k] = v`: replace in place when present, append when absent. -/
def dSet (r : JRec) (k : String) (v : JVal) : JRec :=
  match r with
  | [] => [(k, v)]
  | (k2, v2) :: rest => if k2 = k then (k2, v) :: rest else (k2, v2) :: dSet rest k v

/-- Python `{**a, **b}`: entries of `b` override entries of `a`. -/
def dMerge (a b : JRec) : JRec :=
  b.foldl (fun acc kv => dSet acc kv.1 kv.2) a

/-- Python truthiness of a JSON value (`if x:`). -/
def jTruthy : JVal → Bool
  | .null => false
  | .bool b => b
  | .str s => !(s = "")
  | .int n => !(n = 0)
  | .arr l => !l.isEmpty
  | .obj l => !l.isEmpty

/-! ## ResponseCache (`AjaxCacheService`, backend/app/services/ajax_cache.py)

The Redis keyspace backing the cache is a list of `(key, value, expiry)`
entries; Redis `SET k v EX ttl` at time `t` installs expiry `t + ttl` and a
key exists at time `t` exactly when `t < expiry`.  Values are stored
JSON-serialized; `json.dumps` never produces the empty string, so the `if
cached:` truthiness test in `AjaxCacheService.get` is equivalent to key
presence, and `get` hands back the deserialized value (`JVal.null` plays
Python's `None`, so a cached JSON `null` deserializes to `None` and
`get_or_fetch`'s `if cached is not None:` treats it as a miss, exactly as in
the source). -/

structure CacheStore where
  entries : List (String × JVal × ℚ)

namespace AjaxCacheService

/-- Live lookup in the backing store at time `t`. -/
def readLive (st : CacheStore) (t : ℚ) (k : String) : Option JVal :=
  match st.entries.find? (fun e => decide (e.1 = k) && decide (t < e.2.2)) with
  | some e => some e.2.1
  | none => none

/-- `AjaxCacheService.get`: deserialized cached value, `None` (= `JVal.null`)
on a miss or on a cached JSON `null`. -/
def get (st : CacheStore) (t : ℚ) (k : String) : JVal :=
  match readLive st t k with
  | some v => v
  | none => JVal.null

/-- `AjaxCacheService.set`: store the serialized value with expiry `t + ttl`. -/
def set (st : CacheStore) (t : ℚ) (k : String) (v : JVal) (ttl : ℚ) : CacheStore :=
  ⟨(k, v, t + ttl) :: st.entries.filter (fun e => !decide (e.1 = k))⟩

/-- `AjaxCacheService.invalidate`: Redis `DELETE key`. -/
def invalidate (st : CacheStore) (k : String) : CacheStore :=
  ⟨st.entries.filter (fun e => !decide (e.1 = k))⟩

/-- Result of `get_or_fetch`: returned value, resulting store, and whether
`fetch_func` was invoked. -/
structure GofResult where
  value : JVal
  store : CacheStore
  fetchInvoked : Bool

/-- `AjaxCacheService.get_or_fetch`: return the cached value on a hit
(`cached is not None`); on a miss invoke `fetch_func`, cache its result with
`ttl`, and return it. -/
def get_or_fetch (st : CacheStore) (t : ℚ) (k : String) (ttl : ℚ)
    (fetch : Unit → JVal) : GofResult :=
  let cached := get st t k
  if cached.isNull then
    let result := fetch ()
    ⟨result, set st t k result ttl, true⟩
  else
    ⟨cached, st, false⟩

def key_hubs (userEmail : String) : String := "ajax:hubs:" ++ userEmail

def key_hub (userEmail hubId : String) : String :=
  "ajax:hub:" ++ userEmail ++ ":" ++ hubId

def key_devices (userEmail hubId : String) : String :=
  "ajax:devices:" ++ userEmail ++ ":" ++ hubId

end AjaxCacheService

/-! ## Arm-state command translation (`AjaxClient.set_arm_state`,
backend/app/services/ajax_client.py) -/

namespace AjaxClient

/-- The `state_map` dict of `set_arm_state`: 0 ↦ DISARM, 1 ↦ ARM, 2 ↦ NIGHT_MODE_ON. -/
def state_map (armState : Int) : Option String :=
  if armState = 0 then some "DISARM"
  else if armState = 1 then some "ARM"
  else if armState = 2 then some "NIGHT_MODE_ON"
  else none

/-- `state_map.get(arm_state, "ARM")`. -/
def armCommand (armState : Int) : String :=
  (state_map armState).getD "ARM"

/-- Endpoint selection of `set_arm_state`: a group id redirects the target. -/
def armEndpoint (userId hubId : String) (groupId : Option String) : String :=
  match groupId with
  | some g => "/user/" ++ userId ++ "/hubs/" ++ hubId ++ "/groups/" ++ g ++ "/commands/arming"
  | none => "/user/" ++ userId ++ "/hubs/" ++ hubId ++ "/commands/arming"

/-- The JSON body `{"command": ..., "ignoreProblems": True}` sent by `set_arm_state`. -/
def armPayload (armState : Int) : JRec :=
  [("command", JVal.str (armCommand armState)), ("ignoreProblems", JVal.bool true)]

/-- Result of `set_arm_state`: upstream result, cache store after the two
invalidations, and the issued `(endpoint, body)` pair. -/
structure ArmResult where
  result : JVal
  store : CacheStore
  issued : String × JRec

/-- `AjaxClient.set_arm_state`, with the upstream `request` call abstracted as
an oracle from `(endpoint, body)` to its outcome.  After a successful command
the hub-detail and hub-list cache entries are invalidated. -/
def set_arm_state (st : CacheStore) (userEmail userId hubId : String)
    (armState : Int) (groupId : Option String)
    (upstream : String → JRec → Except Unit JVal) : Except Unit ArmResult :=
  let endpoint := armEndpoint userId hubId groupId
  let payload := armPayload armState
  match upstream endpoint payload with
  | .error e => .error e
  | .ok v =>
      let st1 := AjaxCacheService.invalidate st (AjaxCacheService.key_hub userEmail hubId)
      let st2 := AjaxCacheService.invalidate st1 (AjaxCacheService.key_hubs userEmail)
      .ok ⟨v, st2, (endpoint, payload)⟩

end AjaxClient

/-! ## Claim C8: invalidation kills the cache entry -/

/-- C8: for every cache key, `invalidate(key)` immediately followed by
`get_or_fetch(key, ttl, fetch)` always invokes `fetch`: after an invalidation
no stale cached value for that key is ever returned by the next
`get_or_fetch`, at any later read time and from any prior store state. -/
theorem c8_invalidate_then_get_or_fetch_fetches
    (st : CacheStore) (t : ℚ) (k : String) (ttl : ℚ) (fetch : Unit → JVal) :
    (AjaxCacheService.get_or_fetch (AjaxCacheService.invalidate st k) t k ttl fetch).fetchInvoked
      = true
    ∧ (AjaxCacheService.get_or_fetch (AjaxCacheService.invalidate st k) t k ttl fetch).value
      = fetch () := by
  have hfind : ∀ (l : List (String × JVal × ℚ)),
      (l.filter (fun e => !decide (e.1 = k))).find?
        (fun e => decide (e.1 = k) && decide (t < e.2.2)) = none := by
    intro l
    induction l with
    | nil => rfl
    | cons e rest ih =>
      by_cases he : e.1 = k
      · simpa [List.filter, he] using ih
      · simpa [List.filter, List.find?, he] using ih
  have hread :
      AjaxCacheService.readLive (AjaxCacheService.invalidate st k) t k = none := by
    unfold AjaxCacheService.readLive AjaxCacheService.invalidate
    rw [hfind st.entries]
  unfold AjaxCacheService.get_or_fetch AjaxCacheService.get
  rw [hread]
  exact ⟨rfl, rfl⟩

/-! ## Claim C10: out-of-range arm states arm the hub -/

/-- C10 (implicit): for every integer `arm_state` outside `{0, 1, 2}`, the
services-layer `set_arm_state` does not reject the request: it maps the
unknown state to the provider command `"ARM"` with `ignoreProblems = true`
and issues the command (succeeding whenever the upstream call succeeds). -/
theorem c10_unknown_arm_state_sends_arm
    (st : CacheStore) (userEmail userId hubId : String)
    (armState : Int) (groupId : Option String) (v : JVal)
    (upstream : String → JRec → Except Unit JVal)
    (hs0 : armState ≠ 0) (hs1 : armState ≠ 1) (hs2 : armState ≠ 2)
    (hup : ∀ ep body, upstream ep body = .ok v) :
    AjaxClient.set_arm_state st userEmail userId hubId armState groupId upstream
      = .ok ⟨v,
          AjaxCacheService.invalidate
            (AjaxCacheService.invalidate st (AjaxCacheService.key_hub userEmail hubId))
            (AjaxCacheService.key_hubs userEmail),
          (AjaxClient.armEndpoint userId hubId groupId,
            [("command", JVal.str "ARM"), ("ignoreProblems", JVal.bool true)])⟩ := by
  have hcmd : AjaxClient.armCommand armState = "ARM" := by
    unfold AjaxClient.armCommand AjaxClient.state_map
    simp [hs0, hs1, hs2]
  simp only [AjaxClient.set_arm_state, AjaxClient.armPayload, hcmd, hup]

/-- Witness for C10 at `arm_state = 7`: the command sent is `"ARM"`. -/
theorem c10_unknown_arm_state_sends_arm_witness :
    AjaxClient.set_arm_state ⟨[]⟩ "u@x" "uid1" "hub1" 7 none (fun _ _ => .ok (JVal.bool true))
      = .ok ⟨JVal.bool true, ⟨[]⟩,
          ("/user/uid1/hubs/hub1/commands/arming",
            [("command", JVal.str "ARM"), ("ignoreProblems", JVal.bool true)])⟩ :=
  c10_unknown_arm_state_sends_arm ⟨[]⟩ "u@x" "uid1" "hub1" 7 none (JVal.bool true)
    (fun _ _ => .ok (JVal.bool true))
    (by decide) (by decide) (by decide) (fun _ _ => rfl)

/-! ## Device flattening (`AjaxClient.get_hub_devices`,
backend/app/services/ajax_client.py)

Items are JSON dictionaries.  On an item whose `properties` value is present
but not a dictionary the Python `{**properties}` splat raises `TypeError`;
such ill-typed inputs are excluded by the `propsWellTyped` hypothesis where a
theorem quantifies over inputs. -/

namespace AjaxClient

/-- `device_id = item.get("deviceId") or item.get("id")` (Python `or`:
the first operand when truthy, else the second). -/
def deviceIdOf (item : JRec) : JVal :=
  let d := dGetD item "deviceId"
  if jTruthy d then d else dGetD item "id"

/-- `properties = item.get("properties", {})` on well-typed items. -/
def propsOf (item : JRec) : JRec :=
  match dGet item "properties" with
  | some (.obj l) => l
  | _ => []

/-- Item whose `properties` field is absent or a dictionary. -/
def propsWellTyped (item : JRec) : Bool :=
  match dGet item "properties" with
  | none => true
  | some (.obj _) => true
  | _ => false

/-- One of the three root-field copy steps: `if f in item and f not in
flattened_item: flattened_item[f] = item[f]`. -/
def addRootField (item : JRec) (acc : JRec) (f : String) : JRec :=
  if dHas item f && !dHas acc f then dSet acc f (dGetD item f) else acc

/-- `flattened_item = {"deviceId": device_id, **properties}` followed by the
three root-field copies, in source order. -/
def flattenItem (item : JRec) : JRec :=
  ["deviceName", "deviceType", "online"].foldl (addRootField item)
    (dMerge [("deviceId", deviceIdOf item)] (propsOf item))

/-- The flattening loop of `get_hub_devices`: items with a falsy device id
(`if not device_id: continue`) are skipped. -/
def flatten_devices (raw : List JRec) : List JRec :=
  raw.filterMap (fun item =>
    if jTruthy (deviceIdOf item) then some (flattenItem item) else none)

/-- View a JSON value as a dictionary (items of a device-list response). -/
def recOf : JVal → JRec
  | .obj l => l
  | _ => []

/-- `AjaxClient.get_hub_devices` around the flattening loop: cache hit returns
the cached value; on a miss a list response is flattened and cached with
`settings.CACHE_TTL_DEVICES = 600`, a non-list response yields `[]` uncached.
The upstream response is passed as the `raw` argument. -/
def get_hub_devices (st : CacheStore) (t : ℚ) (userEmail hubId : String)
    (raw : JVal) : JVal × CacheStore :=
  let key := AjaxCacheService.key_devices userEmail hubId
  let cached := AjaxCacheService.get st t key
  if !cached.isNull then (cached, st)
  else
    match raw with
    | .arr items =>
        let flat := flatten_devices (items.map recOf)
        let v := JVal.arr (flat.map JVal.obj)
        (v, AjaxCacheService.set st t key v 600)
    | _ => (JVal.arr [], st)

end AjaxClient

/-- The flattened record exactly as claim C9 words it: the nested `properties`
sub-object merged under the device id, then each root-level field among
`deviceName`, `deviceType`, `online` taking effect only when the
corresponding nested value is absent. -/
def deviceFlattenedSpec (item : JRec) : JRec :=
  let base := dMerge [("deviceId", AjaxClient.deviceIdOf item)] (AjaxClient.propsOf item)
  let s1 := if dHas item "deviceName" && !dHas base "deviceName"
            then dSet base "deviceName" (dGetD item "deviceName") else base
  let s2 := if dHas item "deviceType" && !dHas s1 "deviceType"
            then dSet s1 "deviceType" (dGetD item "deviceType") else s1
  if dHas item "online" && !dHas s2 "online"
  then dSet s2 "online" (dGetD item "online") else s2

/-- The output claim C9 asserts: one flattened record for every device record
of the upstream list. -/
def c9ClaimOutput (raw : List JRec) : List JRec :=
  raw.map deviceFlattenedSpec

/-! ## Claim C9 -/

/-- C9 counterexample: a device record carrying only a `properties` object
(no `deviceId` and no `id`) is silently dropped by `get_hub_devices`, so the
output is empty rather than containing the record's flattening — the claim's
"for every device record returned by the upstream device list" is false. -/
theorem c9_counterexample :
    AjaxClient.flatten_devices [[("properties", JVal.obj [("x", JVal.str "1")])]] = []
    ∧ AjaxClient.flatten_devices [[("properties", JVal.obj [("x", JVal.str "1")])]]
      ≠ c9ClaimOutput [[("properties", JVal.obj [("x", JVal.str "1")])]] := by
  refine ⟨rfl, fun h => ?_⟩
  have := congrArg List.length h
  simp [c9ClaimOutput, AjaxClient.flatten_devices, AjaxClient.deviceIdOf,
    dGetD, dGet, jTruthy] at this

/-- Every item is flattened exactly as the claim describes. -/
theorem flattenItem_eq_spec (item : JRec) :
    AjaxClient.flattenItem item = deviceFlattenedSpec item := by
  simp only [AjaxClient.flattenItem, deviceFlattenedSpec, AjaxClient.addRootField,
    List.foldl_cons, List.foldl_nil]

/-- C9 amended: for every device record that carries a truthy `deviceId` (or,
failing that, a truthy `id`) root field, `get_hub_devices` flattens it to a
single record equal to the nested `properties` sub-object merged under the
device id, a root-level field among `deviceName`/`deviceType`/`online` taking
effect only when the corresponding nested value is absent; records with no
truthy device id are dropped.  When every record has a truthy device id the
returned list contains exactly one flattened record per input record, and a
cache miss returns that list. -/
theorem c9_flattening_amended (raw : List JRec)
    (_hwt : ∀ item ∈ raw, AjaxClient.propsWellTyped item = true)
    (hid : ∀ item ∈ raw, jTruthy (AjaxClient.deviceIdOf item) = true) :
    AjaxClient.flatten_devices raw = c9ClaimOutput raw
    ∧ ∀ (st : CacheStore) (t : ℚ) (userEmail hubId : String),
        (AjaxCacheService.get st t (AjaxCacheService.key_devices userEmail hubId)).isNull
          = true →
        (AjaxClient.get_hub_devices st t userEmail hubId
            (JVal.arr (raw.map JVal.obj))).1
          = JVal.arr ((c9ClaimOutput raw).map JVal.obj) := by
  have hflat : AjaxClient.flatten_devices raw = c9ClaimOutput raw := by
    clear _hwt
    induction raw with
    | nil => rfl
    | cons item rest ih =>
      have hitem := hid item (List.mem_cons_self item rest)
      have hrest := ih (fun i hi => hid i (List.mem_cons_of_mem item hi))
      simp only [AjaxClient.flatten_devices, c9ClaimOutput, List.filterMap_cons,
        List.map_cons] at hrest ⊢
      rw [hitem]
      simp only [if_true]
      rw [flattenItem_eq_spec, hrest]
  refine ⟨hflat, fun st t userEmail hubId hmiss => ?_⟩
  have hmaps : (raw.map JVal.obj).map AjaxClient.recOf = raw := by
    rw [List.map_map]
    have : (AjaxClient.recOf ∘ JVal.obj) = id := by
      funext r; rfl
    rw [this, List.map_id]
  simp only [AjaxClient.get_hub_devices, hmiss, Bool.not_true, Bool.false_eq_true,
    if_false, hmaps, hflat]

/-- Witness for C9 at a two-record list: a record with nested fields plus root
fields, and a record relying on the root `id` fallback. -/
theorem c9_flattening_amended_witness :
    AjaxClient.flatten_devices
        [[("deviceId", JVal.str "d1"), ("deviceName", JVal.str "rootName"),
          ("properties", JVal.obj [("deviceName", JVal.str "nested"), ("battery", JVal.int 95)])],
         [("id", JVal.str "d2"), ("online", JVal.bool true), ("properties", JVal.obj [])]]
      = c9ClaimOutput
        [[("deviceId", JVal.str "d1"), ("deviceName", JVal.str "rootName"),
          ("properties", JVal.obj [("deviceName", JVal.str "nested"), ("battery", JVal.int 95)])],
         [("id", JVal.str "d2"), ("online", JVal.bool true), ("properties", JVal.obj [])]] :=
  (c9_flattening_amended _
    (by intro item h; fin_cases h <;> rfl)
    (by intro item h; fin_cases h <;> rfl)).1

/-! ## Hub-list fan-out and merge (`AjaxClient.get_hubs`,
backend/app/services/ajax_client.py)

`get_hubs` builds `tasks` only for summaries with a truthy `hubId`
(`for h in hubs_list if h.get('hubId')`), gathers them with
`return_exceptions=True` (per-task failures become values), then iterates
`for i, hub_summary in enumerate(hubs_list)` reading `details[i]` — a Python
`IndexError` (modelled as `Except.error`) whenever some summary lacked a
truthy `hubId`, because `details` is then shorter than `hubs_list`.  On
records where `activeChannels` is present but not a JSON array the Python
`len()` raises; `activeChannelsLen` is only meaningful on well-typed
records. -/

namespace AjaxClient

/-- `len(hub_data.get('activeChannels', []))` on well-typed records. -/
def activeChannelsLen (r : JRec) : ℕ :=
  match dGet r "activeChannels" with
  | some (.arr l) => l.length
  | _ => 0

/-- Record whose `activeChannels` field is absent or a JSON array. -/
def acWellTyped (r : JRec) : Bool :=
  match dGet r "activeChannels" with
  | none => true
  | some (.arr _) => true
  | _ => false

/-- The `online` defaulting applied to every enriched record: when
`hub_data.get('online') is None`, set `online` to
`len(activeChannels) > 0 or state is not None`. -/
def onlineDefault (r : JRec) : JRec :=
  if (dGetD r "online").isNull then
    dSet r "online"
      (JVal.bool (decide (0 < activeChannelsLen r) || !(dGetD r "state").isNull))
  else r

/-- The hub ids fetched by the fan-out, in order:
`[h.get('hubId') for h in hubs_list if h.get('hubId')]`. -/
def hubTasks (hubsList : List JRec) : List JVal :=
  hubsList.filterMap (fun h =>
    if jTruthy (dGetD h "hubId") then some (dGetD h "hubId") else none)

/-- The merge loop of `get_hubs`: `details[i]` raises `IndexError` when the
details list is exhausted before the summaries; a detail that is an exception
degrades to the bare summary; otherwise `{**hub_summary, **detail}`. -/
def enrichHubs (hubsList : List JRec) (details : List (Except Unit JRec)) :
    Except Unit (List JRec) :=
  match hubsList, details with
  | [], _ => .ok []
  | _ :: _, [] => .error ()
  | h :: hs, d :: ds =>
      let hubData := match d with
        | .error _ => h
        | .ok det => dMerge h det
      match enrichHubs hs ds with
      | .error e => .error e
      | .ok rest => .ok (onlineDefault hubData :: rest)

/-- The fan-out + merge core of `get_hubs` after the summary request, with the
per-hub detail request abstracted as an oracle (`asyncio.gather` with
`return_exceptions=True` yields results in task order). -/
def get_hubs_fanout (hubsList : List JRec)
    (fetchDetail : JVal → Except Unit JRec) : Except Unit (List JRec) :=
  enrichHubs hubsList ((hubTasks hubsList).map fetchDetail)

end AjaxClient

/-! ## Claim C4 -/

/-- C4 counterexample: a summary list containing one hub record without a
`hubId` makes `get_hubs` raise `IndexError` — the whole hub-list call fails
even though no detail fetch failed, and no detail fetch is issued for that
hub; the claim's "the overall call still succeeds and returns one record per
hub" is false. -/
theorem c4_counterexample :
    AjaxClient.get_hubs_fanout [[("name", JVal.str "h1")]] (fun _ => Except.ok [])
      = Except.error ()
    ∧ AjaxClient.hubTasks [[("name", JVal.str "h1")]] = [] := by
  exact ⟨rfl, rfl⟩

/-- C4 amended: provided every hub record in the summary list has a truthy
`hubId`, a per-hub detail fetch is issued for every hub (in list order), a hub
whose detail fetch fails degrades to its unmerged summary record while a
successful fetch merges the detail fields over the summary, the `online`
defaulting is applied to every record, and the overall call succeeds with
exactly one record per hub; a summary without a truthy `hubId` instead makes
the whole call fail with an index error (no detail fetch is issued for it). -/
theorem c4_fanout_amended (hubsList : List JRec)
    (fetchDetail : JVal → Except Unit JRec)
    (_hac : ∀ h ∈ hubsList, AjaxClient.acWellTyped h = true)
    (hid : ∀ h ∈ hubsList, jTruthy (dGetD h "hubId") = true) :
    AjaxClient.hubTasks hubsList = hubsList.map (fun h => dGetD h "hubId")
    ∧ AjaxClient.get_hubs_fanout hubsList fetchDetail
      = Except.ok (hubsList.map (fun h =>
          AjaxClient.onlineDefault (match fetchDetail (dGetD h "hubId") with
            | .error _ => h
            | .ok det => dMerge h det))) := by
  induction hubsList with
  | nil => exact ⟨rfl, rfl⟩
  | cons h hs ih =>
    have hh := hid h (List.mem_cons_self h hs)
    obtain ⟨ihTasks, ihRun⟩ :=
      ih (fun x hx => _hac x (List.mem_cons_of_mem h hx))
        (fun x hx => hid x (List.mem_cons_of_mem h hx))
    have htasks : AjaxClient.hubTasks (h :: hs)
        = dGetD h "hubId" :: AjaxClient.hubTasks hs := by
      simp only [AjaxClient.hubTasks, List.filterMap_cons]
      rw [hh]
      simp only [if_true]
    refine ⟨?_, ?_⟩
    · rw [htasks, ihTasks, List.map_cons]
    · simp only [AjaxClient.get_hubs_fanout] at ihRun ⊢
      rw [htasks, List.map_cons, List.map_cons]
      show AjaxClient.enrichHubs (h :: hs) (fetchDetail (dGetD h "hubId")
          :: (AjaxClient.hubTasks hs).map fetchDetail) = _
      simp only [AjaxClient.enrichHubs]
      rw [ihRun]

/-- Witness for C4 at a two-hub list whose second detail fetch fails: the call
succeeds, the first record is merged, the second degrades to its summary. -/
theorem c4_fanout_amended_witness :
    AjaxClient.get_hubs_fanout
        [[("hubId", JVal.str "A"), ("online", JVal.bool true)],
         [("hubId", JVal.str "B"), ("online", JVal.bool false)]]
        (fun x => match x with
          | .str "A" => Except.ok [("state", JVal.str "ARMED")]
          | _ => Except.error ())
      = Except.ok
        [[("hubId", JVal.str "A"), ("online", JVal.bool true), ("state", JVal.str "ARMED")],
         [("hubId", JVal.str "B"), ("online", JVal.bool false)]] := by
  have h := (c4_fanout_amended
    [[("hubId", JVal.str "A"), ("online", JVal.bool true)],
     [("hubId", JVal.str "B"), ("online", JVal.bool false)]]
    (fun x => match x with
      | .str "A" => Except.ok [("state", JVal.str "ARMED")]
      | _ => Except.error ())
    (by intro x hx; fin_cases hx <;> rfl)
    (by intro x hx; fin_cases hx <;> rfl)).2
  rw [h]
  rfl

/-! ## SessionStore (`AjaxClient._save_session_data` /
`AjaxClient.login_with_credentials`, backend/app/services/ajax_client.py)

The per-tenant Redis session keyspace is modelled by its three slots; TTLs
are recorded as written (`ex=` argument).  `hashlib.sha256(...).hexdigest()`
is a library call, abstracted as an explicit function parameter
`sha256hex`. -/

/-- The three Redis keys `ajax_user:{email}:token` / `:id` / `:refresh` for
one tenant, each with the TTL it was last written with (the id key is stored
without expiry). -/
structure SessStore where
  token : Option (String × Int)
  uid : Option String
  refresh : Option (String × Int)

/-- Python truthiness of an optional string (`if not token:`). -/
def strFalsy : Option String → Bool
  | none => true
  | some s => s = ""

namespace AjaxClient

/-- `AjaxClient._save_session_data`: session token with TTL
`expires_in - 60`, user id without TTL, refresh token (when truthy) with TTL
604800 s (7 days). -/
def _save_session_data (st : SessStore) (token userId : String)
    (refreshToken : Option String) (expiresIn : Int) : SessStore :=
  { token := some (token, expiresIn - 60)
    uid := some userId
    refresh := if strFalsy refreshToken then st.refresh
               else some ((refreshToken.getD ""), 604800) }

/-- Outcomes of `AjaxAuthError` raised by `login_with_credentials`. -/
inductive LoginErr where
  | invalidCredentials   -- httpx.HTTPStatusError from raise_for_status
  | missingSessionData   -- "Login successful but missing session data."
  deriving Repr, DecidableEq

/-- The upstream `/login` response: `ok` is whether `raise_for_status`
passed (2xx), the remaining fields are `data.get(...)` lookups. -/
structure LoginResp where
  ok : Bool
  sessionToken : Option String
  userId : Option String
  refreshToken : Option String
  expiresIn : Option Int

/-- `AjaxClient.login_with_credentials`: returns the JSON payload submitted
to `/login` together with the session-store outcome.  The password is never
submitted raw: the payload carries `sha256hex(password_raw)`. -/
def login_with_credentials (sha256hex : String → String) (email passwordRaw : String)
    (resp : LoginResp) (st : SessStore) : JRec × Except LoginErr SessStore :=
  let payload : JRec :=
    [("login", JVal.str email),
     ("passwordHash", JVal.str (sha256hex passwordRaw)),
     ("userRole", JVal.str "USER")]
  if resp.ok then
    if strFalsy resp.sessionToken || strFalsy resp.userId then
      (payload, .error .missingSessionData)
    else
      let expiresIn := resp.expiresIn.getD 900
      (payload, .ok (_save_session_data st (resp.sessionToken.getD "")
        (resp.userId.getD "") resp.refreshToken expiresIn))
  else
    (payload, .error .invalidCredentials)

end AjaxClient

/-! ## Claim C7 -/

/-- C7: for every `login(tenant, raw_credential)` call: the submitted
credential is the SHA-256 hex digest of the raw password (never the raw
password); on a 2xx response carrying a session token and user id, the
session token is persisted with TTL equal to the upstream-reported expiry
minus the fixed 60-second margin, the user id is persisted, and a returned
(truthy) refresh token is persisted with its 7-day TTL; login fails with
`AjaxAuthError` when the upstream rejects the credentials (non-2xx) or when
the success response omits the session token or the user id. -/
theorem c7_login_contract (sha256hex : String → String) (email passwordRaw : String)
    (resp : AjaxClient.LoginResp) (st : SessStore) :
    (AjaxClient.login_with_credentials sha256hex email passwordRaw resp st).1
      = [("login", JVal.str email),
         ("passwordHash", JVal.str (sha256hex passwordRaw)),
         ("userRole", JVal.str "USER")]
    ∧ (∀ tk uid e, resp.ok = true →
        resp.sessionToken = some tk → tk ≠ "" →
        resp.userId = some uid → uid ≠ "" →
        resp.expiresIn = some e →
        (AjaxClient.login_with_credentials sha256hex email passwordRaw resp st).2
          = .ok { token := some (tk, e - 60)
                  uid := some uid
                  refresh := if strFalsy resp.refreshToken then st.refresh
                             else some ((resp.refreshToken.getD ""), 604800) })
    ∧ (resp.ok = false →
        (AjaxClient.login_with_credentials sha256hex email passwordRaw resp st).2
          = .error .invalidCredentials)
    ∧ (resp.ok = true → (strFalsy resp.sessionToken || strFalsy resp.userId) = true →
        (AjaxClient.login_with_credentials sha256hex email passwordRaw resp st).2
          = .error .missingSessionData) := by
  refine ⟨?_, ?_, ?_, ?_⟩
  · unfold AjaxClient.login_with_credentials
    split
    · split <;> rfl
    · rfl
  · intro tk uid e hok htk htkne huid huidne he
    simp [AjaxClient.login_with_credentials, hok, htk, huid, he, strFalsy,
      htkne, huidne, AjaxClient._save_session_data]
  · intro hok
    simp [AjaxClient.login_with_credentials, hok]
  · intro hok hmiss
    simp [AjaxClient.login_with_credentials, hok, hmiss]

/-- Witness for C7: a successful login with reported expiry 900 s persists
the token with TTL 840 s, and a 401 login yields `AjaxAuthError`. -/
theorem c7_login_contract_witness :
    (AjaxClient.login_with_credentials (fun s => s ++ "#sha") "u@x" "pw"
        ⟨true, some "TOK", some "UID", some "REF", some 900⟩
        ⟨none, none, none⟩).2
      = .ok { token := some ("TOK", 840), uid := some "UID",
              refresh := some ("REF", 604800) }
    ∧ (AjaxClient.login_with_credentials (fun s => s ++ "#sha") "u@x" "pw"
        ⟨false, none, none, none, none⟩ ⟨none, none, none⟩).2
      = .error .invalidCredentials := by
  constructor
  · have h := (c7_login_contract (fun s => s ++ "#sha") "u@x" "pw"
      ⟨true, some "TOK", some "UID", some "REF", some 900⟩ ⟨none, none, none⟩).2.1
      "TOK" "UID" 900 rfl rfl (by decide) rfl (by decide) rfl
    rw [h]
    rfl
  · exact (c7_login_contract (fun s => s ++ "#sha") "u@x" "pw"
      ⟨false, none, none, none, none⟩ ⟨none, none, none⟩).2.2.1 rfl

/-! ## Authenticated request with one 401 retry (`AjaxClient.request`,
backend/app/services/ajax_client.py)

The upstream is abstracted by two oracles: `refreshO i` is the outcome of the
`i`-th `refresh_session` call of this request (`none` = it raised
`AjaxAuthError`, `some t` = it returned the new session token `t`), and
`httpO i tok` is the `(status, body)` of the `i`-th `_do_req` call, issued
with session token `tok`.  The straight-line source has no loop: at most two
`_do_req` calls and at most two `refresh_session` calls can ever be made. -/

namespace AjaxClient

/-- What `AjaxClient.request` raises. -/
inductive ReqError where
  | sessionExpiredRelogin  -- "Session expired. Please log in again." (no token, refresh failed)
  | refreshFailed          -- AjaxAuthError propagated from refresh_session after a 401
  | ajaxSessionExpired     -- "Ajax session expired." (second 401)
  | upstream (status : Nat) -- httpx.HTTPStatusError re-raised
  deriving Repr, DecidableEq

/-- Result of one `request` execution together with how many
`refresh_session` and `_do_req` calls it made. -/
structure ReqResult where
  result : Except ReqError JVal
  refreshCalls : Nat
  httpCalls : Nat

/-- The tail of `request` after the last `_do_req`: second-401 check,
`raise_for_status`, 204 normalization, JSON body. -/
def finishResp (status : Nat) (body : JVal) (rc hc : Nat) : ReqResult :=
  if status = 401 then ⟨.error .ajaxSessionExpired, rc, hc⟩
  else if 200 ≤ status ∧ status ≤ 299 then
    if status = 204 then ⟨.ok (JVal.obj [("success", JVal.bool true)]), rc, hc⟩
    else ⟨.ok body, rc, hc⟩
  else ⟨.error (.upstream status), rc, hc⟩

/-- `request` from the first `_do_req` on, entered with `rc` refresh calls
already made: on a 401, exactly one `refresh_session` and exactly one retry. -/
def afterToken (refreshO : Nat → Option String) (httpO : Nat → String → Nat × JVal)
    (tok : String) (rc : Nat) : ReqResult :=
  if (httpO 0 tok).1 = 401 then
    match refreshO rc with
    | none => ⟨.error .refreshFailed, rc + 1, 1⟩
    | some t2 => finishResp (httpO 1 t2).1 (httpO 1 t2).2 (rc + 1) 2
  else finishResp (httpO 0 tok).1 (httpO 0 tok).2 rc 1

/-- The no-cached-token entry of `request`: `refresh_session` first; its
`AjaxAuthError` becomes "Session expired. Please log in again.". -/
def requestNoCached (refreshO : Nat → Option String)
    (httpO : Nat → String → Nat × JVal) : ReqResult :=
  match refreshO 0 with
  | none => ⟨.error .sessionExpiredRelogin, 1, 0⟩
  | some t1 => afterToken refreshO httpO t1 1

/-- `AjaxClient.request`: use the cached session token when truthy
(`if not token:` — absent or empty means no token), otherwise refresh first;
then the 401-retry protocol above. -/
def request (cachedToken : Option String) (refreshO : Nat → Option String)
    (httpO : Nat → String → Nat × JVal) : ReqResult :=
  match cachedToken with
  | none => requestNoCached refreshO httpO
  | some t =>
      if t = "" then requestNoCached refreshO httpO
      else afterToken refreshO httpO t 0

end AjaxClient

/-! ## Claim C3 -/

/-- C3 counterexample: the frozen claim says no execution of `request` issues
more than one refresh, but when the session-token cache is empty and the
first authenticated call still returns 401, `request` refreshes once to
obtain a token and a second time for the 401 retry: two `refresh_session`
calls in one execution. -/
theorem c3_counterexample :
    ¬ (∀ (cachedToken : Option String) (refreshO : Nat → Option String)
        (httpO : Nat → String → Nat × JVal),
        (AjaxClient.request cachedToken refreshO httpO).refreshCalls ≤ 1) := by
  intro hclaim
  exact absurd
    (hclaim none (fun _ => some "T")
      (fun i _ => if i = 0 then (401, JVal.null) else (200, JVal.obj [])))
    (by decide)

/-- `finishResp` never changes the call counters. -/
theorem finishResp_calls (s : Nat) (b : JVal) (rc hc : Nat) :
    (AjaxClient.finishResp s b rc hc).refreshCalls = rc
    ∧ (AjaxClient.finishResp s b rc hc).httpCalls = hc := by
  unfold AjaxClient.finishResp
  split
  · exact ⟨rfl, rfl⟩
  · split
    · split
      · exact ⟨rfl, rfl⟩
      · exact ⟨rfl, rfl⟩
    · exact ⟨rfl, rfl⟩

/-- `afterToken` adds at most one refresh and makes at most two HTTP calls. -/
theorem afterToken_calls (refreshO : Nat → Option String)
    (httpO : Nat → String → Nat × JVal) (tok : String) (rc : Nat) :
    (AjaxClient.afterToken refreshO httpO tok rc).refreshCalls ≤ rc + 1
    ∧ (AjaxClient.afterToken refreshO httpO tok rc).httpCalls ≤ 2 := by
  unfold AjaxClient.afterToken
  by_cases h1 : (httpO 0 tok).1 = 401
  · rw [if_pos h1]
    cases hr : refreshO rc with
    | none =>
        dsimp only
        exact ⟨le_refl _, by omega⟩
    | some t2 =>
        dsimp only
        refine ⟨?_, ?_⟩
        · rw [(finishResp_calls _ _ _ _).1]
        · rw [(finishResp_calls _ _ _ _).2]
  · rw [if_neg h1]
    refine ⟨?_, ?_⟩
    · rw [(finishResp_calls _ _ _ _).1]; omega
    · rw [(finishResp_calls _ _ _ _).2]; omega

/-- `requestNoCached` makes at most two refreshes and two HTTP calls. -/
theorem requestNoCached_calls (refreshO : Nat → Option String)
    (httpO : Nat → String → Nat × JVal) :
    (AjaxClient.requestNoCached refreshO httpO).refreshCalls ≤ 2
    ∧ (AjaxClient.requestNoCached refreshO httpO).httpCalls ≤ 2 := by
  unfold AjaxClient.requestNoCached
  cases hr : refreshO 0 with
  | none =>
      dsimp only
      exact ⟨by omega, by omega⟩
  | some t1 =>
      dsimp only
      refine ⟨?_, (afterToken_calls refreshO httpO t1 1).2⟩
      have := (afterToken_calls refreshO httpO t1 1).1
      omega

/-- C3 amended: every execution of `request` issues at most two authenticated
upstream HTTP calls and at most two refreshes (at most one refresh when a
cached session token exists — a second refresh only arises when the token
cache is empty and the first call still 401s); with a cached token, a 401 on
the first HTTP call triggers exactly one refresh and exactly one retried HTTP
call (never a loop), and a 401 on the retried call fails with
`AjaxAuthError`. -/
theorem c3_retry_amended (cachedToken : Option String)
    (refreshO : Nat → Option String) (httpO : Nat → String → Nat × JVal) :
    (AjaxClient.request cachedToken refreshO httpO).httpCalls ≤ 2
    ∧ (AjaxClient.request cachedToken refreshO httpO).refreshCalls ≤ 2
    ∧ (∀ t, cachedToken = some t → t ≠ "" →
        (AjaxClient.request cachedToken refreshO httpO).refreshCalls ≤ 1)
    ∧ (∀ t t2, cachedToken = some t → t ≠ "" →
        (httpO 0 t).1 = 401 → refreshO 0 = some t2 →
        (AjaxClient.request cachedToken refreshO httpO).refreshCalls = 1
        ∧ (AjaxClient.request cachedToken refreshO httpO).httpCalls = 2
        ∧ ((httpO 1 t2).1 = 401 →
            (AjaxClient.request cachedToken refreshO httpO).result
              = .error .ajaxSessionExpired)) := by
  refine ⟨?_, ?_, ?_, ?_⟩
  · rcases cachedToken with _ | t
    · simp only [AjaxClient.request]
      exact (requestNoCached_calls refreshO httpO).2
    · simp only [AjaxClient.request]
      by_cases ht : t = ""
      · rw [if_pos ht]
        exact (requestNoCached_calls refreshO httpO).2
      · rw [if_neg ht]
        exact (afterToken_calls refreshO httpO t 0).2
  · rcases cachedToken with _ | t
    · simp only [AjaxClient.request]
      exact (requestNoCached_calls refreshO httpO).1
    · simp only [AjaxClient.request]
      by_cases ht : t = ""
      · rw [if_pos ht]
        exact (requestNoCached_calls refreshO httpO).1
      · rw [if_neg ht]
        have := (afterToken_calls refreshO httpO t 0).1
        omega
  · intro t hct htne
    subst hct
    simp only [AjaxClient.request]
    rw [if_neg htne]
    have := (afterToken_calls refreshO httpO t 0).1
    omega
  · intro t t2 hct htne h401 hr0
    subst hct
    simp only [AjaxClient.request]
    rw [if_neg htne]
    unfold AjaxClient.afterToken
    rw [if_pos h401, hr0]
    dsimp only
    refine ⟨(finishResp_calls _ _ _ _).1, (finishResp_calls _ _ _ _).2,
      fun h401b => ?_⟩
    unfold AjaxClient.finishResp
    rw [if_pos h401b]

/-- Witness for C3: a cached token whose first call 401s and whose retry
succeeds gives exactly one refresh and two HTTP calls. -/
theorem c3_retry_amended_witness :
    (AjaxClient.request (some "T0") (fun _ => some "T1")
        (fun i _ => if i = 0 then (401, JVal.null) else (200, JVal.obj []))).refreshCalls = 1
    ∧ (AjaxClient.request (some "T0") (fun _ => some "T1")
        (fun i _ => if i = 0 then (401, JVal.null) else (200, JVal.obj []))).httpCalls = 2 := by
  have h := (c3_retry_amended (some "T0") (fun _ => some "T1")
    (fun i _ => if i = 0 then (401, JVal.null) else (200, JVal.obj []))).2.2.2
    "T0" "T1" rfl (by decide) (by decide) rfl
  exact ⟨h.1, h.2.1⟩

/-! ## IdentityTokenGuard: access-token verification (`get_current_user`,
backend/app/modules/auth/service.py)

The slice after a successful `jwt.decode`: the decoded claims are the
`TokenPayload` fields (`payload.get(...)`), the SHA-256 hex digest is the
abstract `sha256hex` parameter, the Redis revocation set
(`token_blacklist:{jti}`) is the `revoked` oracle and the user table the
`userExists` oracle.  Security/audit writes are collected as a list of
events. -/

namespace IdentityGuard

/-- Decoded JWT claims read by `get_current_user`. -/
structure TokenPayload where
  type : Option String
  sub : Option String
  jti : Option String
  uah : Option String
  uip : Option String

/-- Audit/notification writes of `get_current_user`. -/
inductive AuthEvent where
  | uaMismatchCritical  -- SECURITY_ALERT_UA_MISMATCH, severity CRITICAL
  | ipShiftWarning      -- SECURITY_INFO_IP_SHIFT, severity WARNING
  | ipShiftNotification -- "Nueva IP detectada" user notification
  deriving Repr, DecidableEq

/-- `get_current_user` after a successful decode: type/sub check, fingerprint
check (CRITICAL + 401 on mismatch), IP-shift warning, jti revocation check,
user lookup, IP-shift notification.  Every rejection is the generic
`HTTPException(401, "Invalid credentials")`. -/
def get_current_user (sha256hex : String → String) (p : TokenPayload)
    (currentUa : String) (currentIp : Option String)
    (revoked : String → Bool) (userExists : String → Bool) :
    Except Unit String × List AuthEvent :=
  match p.sub with
  | none => (.error (), [])
  | some email =>
      if p.type ≠ some "access" then (.error (), [])
      else
        let currentUah := sha256hex currentUa
        if !strFalsy p.uah && !(p.uah.getD "" = currentUah) then
          (.error (), [.uaMismatchCritical])
        else
          let ipShift := !strFalsy p.uip && !strFalsy currentIp
            && !(p.uip.getD "" = currentIp.getD "")
          let ev1 : List AuthEvent := if ipShift then [.ipShiftWarning] else []
          if !strFalsy p.jti && revoked (p.jti.getD "") then (.error (), ev1)
          else if !userExists email then (.error (), ev1)
          else (.ok email,
            ev1 ++ (if ipShift then [.ipShiftNotification] else []))

end IdentityGuard

/-! ## Claim C5 -/

/-- C5: for every syntactically valid, unexpired access token embedding a
fingerprint hash, verification rejects with the generic 401 and logs a
CRITICAL `SECURITY_ALERT_UA_MISMATCH` event whenever the fingerprint
recomputed from the current request user-agent differs from the embedded one;
when the fingerprints match, verification never logs that event (it does not
reject on this ground). -/
theorem c5_fingerprint_binding (sha256hex : String → String)
    (p : IdentityGuard.TokenPayload) (currentUa : String)
    (currentIp : Option String) (revoked userExists : String → Bool) :
    (∀ email f, p.sub = some email → p.type = some "access" →
      p.uah = some f → f ≠ "" → f ≠ sha256hex currentUa →
      IdentityGuard.get_current_user sha256hex p currentUa currentIp revoked userExists
        = (.error (), [.uaMismatchCritical]))
    ∧ (p.uah = some (sha256hex currentUa) →
        IdentityGuard.AuthEvent.uaMismatchCritical ∉
          (IdentityGuard.get_current_user sha256hex p currentUa currentIp
            revoked userExists).2) := by
  constructor
  · intro email f hsub htype huah hfne hfdiff
    simp [IdentityGuard.get_current_user, hsub, htype, huah, strFalsy, hfne, hfdiff]
  · intro hmatch
    unfold IdentityGuard.get_current_user
    cases hsub : p.sub with
    | none => simp
    | some email =>
        dsimp only
        by_cases htype : p.type = some "access"
        · rw [if_neg (by simp [htype])]
          rw [if_neg (by simp [hmatch, strFalsy])]
          split
          · split <;> simp
          · split
            · split <;> simp
            · split <;> simp
        · rw [if_pos (by simp [htype])]
          simp

/-- Witness for C5: a token fingerprinted for user-agent "firefox" presented
with user-agent "curl" is rejected with the CRITICAL event; the same token
with the matching user-agent logs no mismatch event. -/
theorem c5_fingerprint_binding_witness :
    IdentityGuard.get_current_user (fun s => "h:" ++ s)
        ⟨some "access", some "u@x", some "J", some "h:firefox", none⟩
        "curl" none (fun _ => false) (fun _ => true)
      = (.error (), [.uaMismatchCritical])
    ∧ IdentityGuard.AuthEvent.uaMismatchCritical ∉
        (IdentityGuard.get_current_user (fun s => "h:" ++ s)
          ⟨some "access", some "u@x", some "J", some "h:firefox", none⟩
          "firefox" none (fun _ => false) (fun _ => true)).2 := by
  constructor
  · exact (c5_fingerprint_binding (fun s => "h:" ++ s)
      ⟨some "access", some "u@x", some "J", some "h:firefox", none⟩
      "curl" none (fun _ => false) (fun _ => true)).1
      "u@x" "h:firefox" rfl rfl rfl (by decide) (by decide)
  · exact (c5_fingerprint_binding (fun s => "h:" ++ s)
      ⟨some "access", some "u@x", some "J", some "h:firefox", none⟩
      "firefox" none (fun _ => false) (fun _ => true)).2 rfl

/-! ## IdentityTokenGuard: refresh rotation (`refresh_token`,
backend/app/modules/auth/router.py)

The revocation set is the Redis keyspace `token_blacklist:{jti}`: a list of
`(jti, absolute expiry)` entries, `EXISTS` at time `t` meaning an entry with
`t < expiry`.  `jwt.decode` is modelled by a `validSig` flag plus the expiry
check against the integer `exp` claim (PyJWT encodes the `exp` datetime as an
integer timestamp and raises `ExpiredSignatureError` once `now` reaches it);
`now = datetime.now(timezone.utc).timestamp()` is a real-valued instant,
modelled as `ℚ`.  The endpoint computes `ttl = int(exp - now)` — a floor,
since the argument is positive — and inserts the used jti only `if ttl > 0`.
Every failure path raises the generic `HTTPException(401, "Invalid
credentials")`. -/

namespace IdentityGuard

/-- Decoded claims of a refresh token. -/
structure RefreshPayload where
  sub : Option String
  jti : Option String
  type : Option String
  exp : Int

/-- The revocation set: `token_blacklist:{jti}` keys with absolute expiry. -/
structure RotState where
  blacklist : List (String × ℚ)

/-- Redis `EXISTS token_blacklist:{j}` at time `t`. -/
def revokedAt (st : RotState) (j : String) (t : ℚ) : Bool :=
  st.blacklist.any (fun e => decide (e.1 = j) && decide (t < e.2))

/-- The `/auth/refresh` endpoint at time `t`: decode (signature, expiry),
claim checks, revocation check, blacklist insertion with
`ttl = int(exp - now)` guarded by `ttl > 0`, user lookup, then minting of a
fresh pair (success).  Returns the resulting revocation state and outcome. -/
def refresh_endpoint (st : RotState) (userExists : String → Bool)
    (tok : Option RefreshPayload) (validSig : Bool) (t : ℚ) :
    RotState × Except Unit Unit :=
  match tok with
  | none => (st, .error ())
  | some p =>
      if !validSig then (st, .error ())
      else if (p.exp : ℚ) ≤ t then (st, .error ())
      else
        match p.sub, p.jti with
        | some email, some j =>
            if p.type ≠ some "refresh" then (st, .error ())
            else if revokedAt st j t then (st, .error ())
            else
              let ttl : Int := Int.floor ((p.exp : ℚ) - t)
              let st2 : RotState :=
                if 0 < ttl then ⟨(j, t + ttl) :: st.blacklist⟩ else st
              if userExists email then (st2, .ok ()) else (st2, .error ())
        | _, _ => (st, .error ())

end IdentityGuard

/-! ## Claim C2 -/

/-- Unfolding equation for `refresh_endpoint` on a decodable token whose
`sub` and `jti` claims are present. -/
theorem refresh_endpoint_eq (st : IdentityGuard.RotState) (u : String → Bool)
    (p : IdentityGuard.RefreshPayload) (email j : String) (t : ℚ)
    (hsub : p.sub = some email) (hj : p.jti = some j) :
    IdentityGuard.refresh_endpoint st u (some p) true t
      = (if (p.exp : ℚ) ≤ t then (st, .error ())
         else if p.type ≠ some "refresh" then (st, .error ())
         else if IdentityGuard.revokedAt st j t then (st, .error ())
         else if u email then
           (if 0 < Int.floor ((p.exp : ℚ) - t)
            then (⟨(j, t + Int.floor ((p.exp : ℚ) - t)) :: st.blacklist⟩
                   : IdentityGuard.RotState)
            else st, .ok ())
         else
           (if 0 < Int.floor ((p.exp : ℚ) - t)
            then (⟨(j, t + Int.floor ((p.exp : ℚ) - t)) :: st.blacklist⟩
                   : IdentityGuard.RotState)
            else st, .error ())) := by
  obtain ⟨s, ji, ty, e⟩ := p
  simp only at hsub hj
  subst hsub
  subst hj
  rfl

/-- C2 counterexample: a refresh token with `exp = 100` rotated at
`t₁ = 89.5` is blacklisted with `ttl = int(100 - 89.5) = 10`, i.e. only until
`t = 99.5`; replaying the same jti at `t₂ = 99.75` — strictly before the
token's nominal expiry 100 — finds the blacklist entry already expired and
rotates a second time.  The claim's "always fails ... even before the
token's nominal expiry" and "TTL equal to the token's remaining lifetime"
are false: the code truncates the TTL to whole seconds. -/
theorem c2_counterexample :
    (IdentityGuard.refresh_endpoint ⟨[]⟩ (fun _ => true)
        (some ⟨some "u@x", some "J1", some "refresh", 100⟩) true (179/2)).2
      = .ok ()
    ∧ ((399/4 : ℚ) < ((100 : Int) : ℚ))
    ∧ (IdentityGuard.refresh_endpoint
        (IdentityGuard.refresh_endpoint ⟨[]⟩ (fun _ => true)
          (some ⟨some "u@x", some "J1", some "refresh", 100⟩) true (179/2)).1
        (fun _ => true)
        (some ⟨some "u@x", some "J1", some "refresh", 100⟩) true (399/4)).2
      = .ok () := by
  rw [refresh_endpoint_eq _ _ _ "u@x" "J1" _ rfl rfl,
    refresh_endpoint_eq _ _ _ "u@x" "J1" _ rfl rfl]
  norm_num [IdentityGuard.revokedAt]

/-- A successful rotation pins down every check along the way: the token was
unexpired, correctly typed, unrevoked, and the resulting state carries the
conditional blacklist insertion. -/
theorem refresh_endpoint_ok_shape (st : IdentityGuard.RotState)
    (userExists : String → Bool) (p : IdentityGuard.RefreshPayload)
    (email j : String) (t1 : ℚ)
    (hsub : p.sub = some email) (hj : p.jti = some j)
    (hok : (IdentityGuard.refresh_endpoint st userExists (some p) true t1).2 = .ok ()) :
    t1 < (p.exp : ℚ)
    ∧ p.type = some "refresh"
    ∧ IdentityGuard.revokedAt st j t1 = false
    ∧ (IdentityGuard.refresh_endpoint st userExists (some p) true t1).1
      = (if 0 < Int.floor ((p.exp : ℚ) - t1)
         then ⟨(j, t1 + Int.floor ((p.exp : ℚ) - t1)) :: st.blacklist⟩
         else st) := by
  rw [refresh_endpoint_eq st userExists p email j t1 hsub hj] at hok ⊢
  by_cases hexp : (p.exp : ℚ) ≤ t1
  · rw [if_pos hexp] at hok
    exact absurd hok (by simp)
  · rw [if_neg hexp] at hok ⊢
    by_cases htype : p.type = some "refresh"
    · rw [if_neg (by simp [htype])] at hok ⊢
      by_cases hrev : IdentityGuard.revokedAt st j t1 = true
      · rw [if_pos hrev] at hok
        exact absurd hok (by simp)
      · rw [if_neg hrev] at hok ⊢
        refine ⟨lt_of_not_le hexp, htype, by simpa using hrev, ?_⟩
        split <;> rfl
    · rw [if_pos (by simp [htype])] at hok
      exact absurd hok (by simp)

/-- C2 amended: every successful rotation whose token still has at least one
whole second of remaining lifetime inserts the used jti into the revocation
set with TTL `⌊exp − now⌋` seconds (the remaining lifetime truncated to whole
seconds, not the exact remaining lifetime), and replaying that refresh token
fails with the generic 401 whenever the replay happens before the blacklist
entry lapses, i.e. strictly within `⌊exp − t₁⌋` seconds of the rotation
instant `t₁`; in the final fractional second before nominal expiry —
between `t₁ + ⌊exp − t₁⌋` and `exp` — a replay can rotate a second time. -/
theorem c2_rotation_amended (st : IdentityGuard.RotState)
    (userExists : String → Bool) (p : IdentityGuard.RefreshPayload)
    (email j : String) (t1 t2 : ℚ)
    (hsub : p.sub = some email) (hj : p.jti = some j)
    (hok : (IdentityGuard.refresh_endpoint st userExists (some p) true t1).2 = .ok ())
    (h12 : t1 ≤ t2)
    (hwin : t2 < t1 + Int.floor ((p.exp : ℚ) - t1)) :
    (IdentityGuard.refresh_endpoint st userExists (some p) true t1).1.blacklist
      = (j, t1 + Int.floor ((p.exp : ℚ) - t1)) :: st.blacklist
    ∧ (IdentityGuard.refresh_endpoint
        (IdentityGuard.refresh_endpoint st userExists (some p) true t1).1
        userExists (some p) true t2).2 = .error () := by
  obtain ⟨hexp, htype, hrev, hst1⟩ :=
    refresh_endpoint_ok_shape st userExists p email j t1 hsub hj hok
  have httl : 0 < Int.floor ((p.exp : ℚ) - t1) := by
    by_contra hc
    push_neg at hc
    have hc2 : ((Int.floor ((p.exp : ℚ) - t1) : Int) : ℚ) ≤ 0 := by exact_mod_cast hc
    linarith
  have hst1c : (IdentityGuard.refresh_endpoint st userExists (some p) true t1).1.blacklist
      = (j, t1 + Int.floor ((p.exp : ℚ) - t1)) :: st.blacklist := by
    rw [hst1, if_pos httl]
  refine ⟨hst1c, ?_⟩
  have hrevoked : IdentityGuard.revokedAt
      (IdentityGuard.refresh_endpoint st userExists (some p) true t1).1 j t2 = true := by
    unfold IdentityGuard.revokedAt
    rw [hst1c]
    simp only [List.any_cons, Bool.or_eq_true, Bool.and_eq_true, decide_eq_true_eq]
    exact Or.inl ⟨by trivial, hwin⟩
  rw [refresh_endpoint_eq _ userExists p email j t2 hsub hj]
  by_cases hexp2 : (p.exp : ℚ) ≤ t2
  · rw [if_pos hexp2]
  · rw [if_neg hexp2]
    rw [if_neg (by simp [htype])]
    rw [if_pos hrevoked]

/-- Witness for C2 amended: rotation at `t₁ = 0` of a token expiring at 100
blacklists the jti until 100, and a replay at `t₂ = 5` fails. -/
theorem c2_rotation_amended_witness :
    (IdentityGuard.refresh_endpoint ⟨[]⟩ (fun _ => true)
        (some ⟨some "u@x", some "J1", some "refresh", 100⟩) true 0).1.blacklist
      = [("J1", (0 : ℚ) + (Int.floor (((100 : Int) : ℚ) - 0) : ℚ))]
    ∧ (IdentityGuard.refresh_endpoint
        (IdentityGuard.refresh_endpoint ⟨[]⟩ (fun _ => true)
          (some ⟨some "u@x", some "J1", some "refresh", 100⟩) true 0).1
        (fun _ => true)
        (some ⟨some "u@x", some "J1", some "refresh", 100⟩) true 5).2 = .error () := by
  have h := c2_rotation_amended ⟨[]⟩ (fun _ => true)
    ⟨some "u@x", some "J1", some "refresh", 100⟩ "u@x" "J1" 0 5 rfl rfl
    (by rw [refresh_endpoint_eq _ _ _ "u@x" "J1" _ rfl rfl]
        norm_num [IdentityGuard.revokedAt])
    (by norm_num)
    (by norm_num)
  exact ⟨by simpa using h.1, h.2⟩

/-! ## AdmissionController (`GlobalAjaxRateLimiter.__call__`,
backend/app/services/global_rate_limiter.py; the copy in
backend/app/shared/infrastructure/redis/rate_limiter.py is line-for-line
identical in logic)

Constants: LIMIT = 100, WINDOW = 60 s, MAX_WAIT = 30 s, RETRY_INTERVAL =
0.5 s.

For claim C6 one loop iteration is modelled with every Redis round trip
fallible: `FallibleStore` holds the outcome each operation would produce
(`Except.error` = the redis client raised).  The iteration reads
`current_time = time.time()` at the loop top (`t`), re-reads the clock for
the `elapsed` computation after the decrement (`t2`), and keeps the
`start_time` captured at call entry (`s`).  The `except Exception` clause
converts any store failure into `return True` (fail open), while the
deliberate `HTTPException(503)` is re-raised by the `except HTTPException`
clause. -/

namespace RateLimiter

/-- Outcomes each Redis round trip of one iteration would produce;
`Except.error` means the call raises. -/
structure FallibleStore where
  getTs : Except Unit (Option ℚ)
  setTs : Except Unit Unit
  setCtr : Except Unit Unit
  incr : Except Unit Int
  decr : Except Unit Unit

/-- How one loop iteration of `__call__` ends: admitted (`return True`),
rejected (`raise HTTPException(503, Retry-After)`), or sleep
`RETRY_INTERVAL` and re-evaluate. -/
inductive RLOutcome where
  | admitOk  -- return True
  | reject (retryAfter : Int)
  | retrySleep
  deriving Repr, DecidableEq

/-- One loop iteration of `GlobalAjaxRateLimiter.__call__`; the `Bool`
records whether a store operation raised (so the iteration failed open). -/
def rl_iteration (f : FallibleStore) (t t2 s : ℚ) : RLOutcome × Bool :=
  match f.getTs with
  | .error _ => (.admitOk, true)
  | .ok none =>
      match f.setTs with
      | .error _ => (.admitOk, true)
      | .ok _ =>
          match f.setCtr with
          | .error _ => (.admitOk, true)
          | .ok _ => (.admitOk, false)
  | .ok (some w) =>
      if 60 ≤ t - w then
        match f.setTs with
        | .error _ => (.admitOk, true)
        | .ok _ =>
            match f.setCtr with
            | .error _ => (.admitOk, true)
            | .ok _ => (.admitOk, false)
      else
        match f.incr with
        | .error _ => (.admitOk, true)
        | .ok n =>
            if n ≤ 100 then (.admitOk, false)
            else
              match f.decr with
              | .error _ => (.admitOk, true)
              | .ok _ =>
                  if 30 ≤ t2 - s
                  then (.reject (Int.floor (min (60 - (t - w)) 10)), false)
                  else (.retrySleep, false)

end RateLimiter

/-! ## Claim C6 -/

/-- C6: whenever any Redis operation of an admission iteration raises (read,
window write, counter write, increment or decrement), the gate fails open and
admits the request — it neither propagates the error nor rejects, so a store
outage never blocks traffic.  (The deliberate 503 rejection is only reachable
with every store operation succeeding.) -/
theorem c6_store_failure_fails_open (f : RateLimiter.FallibleStore) (t t2 s : ℚ)
    (hfail : (RateLimiter.rl_iteration f t t2 s).2 = true) :
    (RateLimiter.rl_iteration f t t2 s).1 = RateLimiter.RLOutcome.admitOk := by
  have key : RateLimiter.rl_iteration f t t2 s = (RateLimiter.RLOutcome.admitOk, true)
      ∨ (RateLimiter.rl_iteration f t t2 s).2 = false := by
    unfold RateLimiter.rl_iteration
    repeat' split
    all_goals simp
  rcases key with hk | hk
  · rw [hk]
  · rw [hk] at hfail
    exact absurd hfail (by simp)

/-- Witness for C6: a store whose read raises admits the request. -/
theorem c6_store_failure_fails_open_witness :
    (RateLimiter.rl_iteration ⟨.error (), .ok (), .ok (), .ok 1, .ok ()⟩ 0 0 0).1
      = RateLimiter.RLOutcome.admitOk :=
  c6_store_failure_fails_open ⟨.error (), .ok (), .ok (), .ok 1, .ok ()⟩ 0 0 0 rfl

/-! ## AdmissionController: window/counter state machine (claim C1)

The two Redis keys of the fixed-window algorithm, with expiry semantics: a
key written with `ex=WINDOW` at time `t` exists while `now < t + 60`;
`INCR`/`DECR` create a missing key (value 1 / -1) without expiry and
otherwise keep the stored expiry.  Each admission/rejection/window-write is
logged with its wall-clock instant, so that "requests admitted in the window
[W, W+60)" is a statement about the log. -/

namespace RateLimiter

/-- Observable events of the admission gate. -/
inductive CEvent where
  | windowSet (w : ℚ)      -- `SET ajax_api:window_start w EX 60`
  | admitted               -- `return True`
  | rejected (retryAfter : Int)  -- `raise HTTPException(503)`
  deriving Repr, DecidableEq

/-- Number of admissions logged inside the fixed window `[W, W + 60)`. -/
def admitTimesIn (L : List (ℚ × CEvent)) (W : ℚ) : ℕ :=
  L.countP (fun e => decide (e.2 = CEvent.admitted)
    && decide (W ≤ e.1) && decide (e.1 < W + 60))

/-- Whether some window write installed window-start value `W`. -/
def isWindowStart (L : List (ℚ × CEvent)) (W : ℚ) : Bool :=
  L.any (fun e => decide (e.2 = CEvent.windowSet W))

/-- The two Redis keys: `ajax_api:window_start` (value, expiry) and
`ajax_api:global_counter` (value, optional expiry). -/
structure RStore where
  ts : Option (ℚ × ℚ)
  ctr : Option (Int × Option ℚ)
  deriving Repr, DecidableEq

/-- `GET ajax_api:window_start` at time `t`. -/
def tsRead (st : RStore) (t : ℚ) : Option ℚ :=
  match st.ts with
  | some (v, ex) => if t < ex then some v else none
  | none => none

/-- The counter entry if it is live at time `t`. -/
def ctrLive (st : RStore) (t : ℚ) : Option (Int × Option ℚ) :=
  match st.ctr with
  | some (n, some ex) => if t < ex then some (n, some ex) else none
  | some (n, none) => some (n, none)
  | none => none

/-- `SET ajax_api:window_start w EX 60` executed at time `t`. -/
def tsWrite (st : RStore) (w t : ℚ) : RStore :=
  { st with ts := some (w, t + 60) }

/-- `SET ajax_api:global_counter 1 EX 60` executed at time `t`. -/
def ctrWrite1 (st : RStore) (t : ℚ) : RStore :=
  { st with ctr := some (1, some (t + 60)) }

/-- `INCR ajax_api:global_counter` at time `t`: creates value 1 without
expiry when the key is dead, else adds one keeping the expiry; returns the
new value. -/
def ctrIncr (st : RStore) (t : ℚ) : RStore × Int :=
  match ctrLive st t with
  | some (n, ex) => ({ st with ctr := some (n + 1, ex) }, n + 1)
  | none => ({ st with ctr := some (1, none) }, 1)

/-- `DECR ajax_api:global_counter` at time `t`. -/
def ctrDecr (st : RStore) (t : ℚ) : RStore :=
  match ctrLive st t with
  | some (n, ex) => { st with ctr := some (n - 1, ex) }
  | none => { st with ctr := some (-1, none) }

/-- One full loop iteration of `__call__` executed atomically at time `t` by
a request whose `start_time` is `s` (the sequential, non-interleaved
execution model): read the window key; reset-and-admit when absent or
elapsed; else speculatively increment, admit on `≤ LIMIT`, otherwise
decrement back and either reject with the Retry-After hint
`int(min(60 - (t - w), 10))` once `elapsed ≥ MAX_WAIT`, or sleep and
re-evaluate (empty log). -/
def seqIter (st : RStore) (t s : ℚ) : RStore × List (ℚ × CEvent) :=
  match tsRead st t with
  | none =>
      (ctrWrite1 (tsWrite st t t) t, [(t, .windowSet t), (t, .admitted)])
  | some w =>
      if 60 ≤ t - w then
        (ctrWrite1 (tsWrite st t t) t, [(t, .windowSet t), (t, .admitted)])
      else
        if (ctrIncr st t).2 ≤ 100 then ((ctrIncr st t).1, [(t, .admitted)])
        else
          if 30 ≤ t - s then
            (ctrDecr (ctrIncr st t).1 t,
              [(t, .rejected (Int.floor (min (60 - (t - w)) 10)))])
          else (ctrDecr (ctrIncr st t).1 t, [])

/-- Sequential run: each event `(t, s)` is one atomic loop iteration at time
`t` by a request with start time `s`; the log accumulates. -/
def seqRun (st : RStore) (L : List (ℚ × CEvent)) :
    List (ℚ × ℚ) → RStore × List (ℚ × CEvent)
  | [] => (st, L)
  | (t, s) :: es => seqRun (seqIter st t s).1 (L ++ (seqIter st t s).2) es

/-- The invariant of the sequential model: all logged times are at most
`now`; every window value ever installed has at most `LIMIT` admissions in
its 60-second span; and when the window key is live it was installed at `w`
with expiry `w + 60`, the counter equals the number of admissions of the
current window (between 1 and `LIMIT`), every older window is at least 60 s
in the past, and every admission happened before `w + 60`. -/
def SeqInv (st : RStore) (L : List (ℚ × CEvent)) (now : ℚ) : Prop :=
  (∀ e ∈ L, e.1 ≤ now)
  ∧ (∀ W, isWindowStart L W = true → admitTimesIn L W ≤ 100)
  ∧ (match st.ts with
     | none => L = [] ∧ st.ctr = none
     | some (w, ex) =>
         ex = w + 60
         ∧ (∃ n : Int, st.ctr = some (n, some (w + 60)) ∧ 1 ≤ n ∧ n ≤ 100
             ∧ (admitTimesIn L w : Int) = n)
         ∧ w ≤ now
         ∧ isWindowStart L w = true
         ∧ (∀ W, isWindowStart L W = true → W = w ∨ W + 60 ≤ w)
         ∧ (∀ e ∈ L, e.2 = CEvent.admitted → e.1 < w + 60))

end RateLimiter

namespace RateLimiter

theorem admitTimesIn_append (L1 L2 : List (ℚ × CEvent)) (W : ℚ) :
    admitTimesIn (L1 ++ L2) W = admitTimesIn L1 W + admitTimesIn L2 W := by
  simp [admitTimesIn, List.countP_append]

theorem isWindowStart_append (L1 L2 : List (ℚ × CEvent)) (W : ℚ) :
    isWindowStart (L1 ++ L2) W = (isWindowStart L1 W || isWindowStart L2 W) := by
  simp [isWindowStart, List.any_append]

theorem admitTimesIn_singleton_admitted (t W : ℚ) :
    admitTimesIn [(t, CEvent.admitted)] W
      = if W ≤ t ∧ t < W + 60 then 1 else 0 := by
  by_cases h1 : W ≤ t <;> by_cases h2 : t < W + 60 <;>
    simp [admitTimesIn, List.countP_cons, h1, h2]

theorem admitTimesIn_singleton_windowSet (t v W : ℚ) :
    admitTimesIn [(t, CEvent.windowSet v)] W = 0 := by
  simp [admitTimesIn, List.countP_cons]

theorem admitTimesIn_singleton_rejected (t : ℚ) (r : Int) (W : ℚ) :
    admitTimesIn [(t, CEvent.rejected r)] W = 0 := by
  simp [admitTimesIn, List.countP_cons]

theorem admitTimesIn_eq_zero (L : List (ℚ × CEvent)) (W : ℚ)
    (h : ∀ e ∈ L, e.2 = CEvent.admitted → e.1 < W) :
    admitTimesIn L W = 0 := by
  rw [admitTimesIn, List.countP_eq_zero]
  intro e he
  simp only [Bool.and_eq_true, decide_eq_true_eq]
  rintro ⟨⟨hadm, hWle⟩, -⟩
  exact absurd hWle (not_le.mpr (h e he hadm))

theorem isWindowStart_singleton_windowSet (t v W : ℚ) :
    isWindowStart [(t, CEvent.windowSet v)] W = true ↔ v = W := by
  simp [isWindowStart]

theorem isWindowStart_singleton_admitted (t W : ℚ) :
    isWindowStart [(t, CEvent.admitted)] W = false := by
  simp [isWindowStart]

theorem isWindowStart_singleton_rejected (t : ℚ) (r : Int) (W : ℚ) :
    isWindowStart [(t, CEvent.rejected r)] W = false := by
  simp [isWindowStart]

theorem isWindowStart_reset (t v W : ℚ) :
    isWindowStart [(t, CEvent.windowSet v), (t, CEvent.admitted)] W = true ↔ v = W := by
  simp [isWindowStart]

theorem admitTimesIn_reset (t W : ℚ) :
    admitTimesIn [(t, CEvent.windowSet t), (t, CEvent.admitted)] W
      = if W ≤ t ∧ t < W + 60 then 1 else 0 := by
  by_cases h1 : W ≤ t <;> by_cases h2 : t < W + 60 <;>
    simp [admitTimesIn, List.countP_cons, h1, h2]

end RateLimiter

namespace RateLimiter

/-- A window reset (absent or elapsed window key) preserves the invariant:
the fresh window starts with one admission and every older window lies at
least 60 s in the past. -/
theorem seqInv_reset (L : List (ℚ × CEvent)) (t : ℚ) (st : RStore)
    (hTimes : ∀ e ∈ L, e.1 ≤ t)
    (hAll : ∀ W, isWindowStart L W = true → admitTimesIn L W ≤ 100)
    (hOld : ∀ W, isWindowStart L W = true → W + 60 ≤ t)
    (hAdmLt : ∀ e ∈ L, e.2 = CEvent.admitted → e.1 < t) :
    SeqInv (ctrWrite1 (tsWrite st t t) t)
      (L ++ [(t, CEvent.windowSet t), (t, CEvent.admitted)]) t := by
  have hzero : admitTimesIn L t = 0 := admitTimesIn_eq_zero L t hAdmLt
  refine ⟨?_, ?_, ?_⟩
  · intro e he
    rcases List.mem_append.mp he with h1 | h2
    · exact hTimes e h1
    · simp only [List.mem_cons, List.not_mem_nil, or_false] at h2
      rcases h2 with rfl | rfl <;> exact le_refl t
  · intro W hW
    rw [isWindowStart_append] at hW
    rw [admitTimesIn_append, admitTimesIn_reset]
    rcases Bool.or_eq_true_iff.mp hW with h1 | h2
    · rw [if_neg (by rintro ⟨hW1, hW2⟩; exact absurd hW2 (not_lt.mpr (hOld W h1)))]
      simpa using hAll W h1
    · have hWt : W = t := ((isWindowStart_reset t t W).mp h2).symm
      subst hWt
      rw [if_pos ⟨le_refl W, by linarith⟩, hzero]
      norm_num
  · dsimp only [ctrWrite1, tsWrite]
    refine ⟨rfl, ⟨1, rfl, le_refl 1, by norm_num, ?_⟩, le_refl t, ?_, ?_, ?_⟩
    · rw [admitTimesIn_append, admitTimesIn_reset, hzero, if_pos ⟨le_refl t, by linarith⟩]
      norm_num
    · rw [isWindowStart_append]
      simp [isWindowStart, CEvent.windowSet.injEq]
    · intro W hW
      rw [isWindowStart_append] at hW
      rcases Bool.or_eq_true_iff.mp hW with h1 | h2
      · exact Or.inr (hOld W h1)
      · exact Or.inl ((isWindowStart_reset t t W).mp h2).symm
    · intro e he hadm
      rcases List.mem_append.mp he with h1 | h2
      · exact lt_of_le_of_lt (hTimes e h1) (by linarith)
      · simp only [List.mem_cons, List.not_mem_nil, or_false] at h2
        rcases h2 with rfl | rfl
        · simp at hadm
        · show (t : ℚ) < t + 60
          linarith

end RateLimiter

namespace RateLimiter

/-- One atomic loop iteration preserves the sequential invariant, for any
iteration time `t` not before the previous events. -/
theorem seqInv_step (st : RStore) (L : List (ℚ × CEvent)) (now t s : ℚ)
    (hinv : SeqInv st L now) (hle : now ≤ t) :
    SeqInv (seqIter st t s).1 (L ++ (seqIter st t s).2) t := by
  obtain ⟨hTimes, hAll, hCase⟩ := hinv
  have hTimes2 : ∀ e ∈ L, e.1 ≤ t := fun e he => le_trans (hTimes e he) hle
  cases hts : st.ts with
  | none =>
      rw [hts] at hCase
      obtain ⟨hL, hctr⟩ := hCase
      subst hL
      have hread : tsRead st t = none := by simp [tsRead, hts]
      simp only [seqIter, hread]
      exact seqInv_reset [] t st (by simp)
        (by intro W h; simp [isWindowStart] at h) (by intro W h; simp [isWindowStart] at h)
        (by simp)
  | some p =>
      obtain ⟨w, ex⟩ := p
      rw [hts] at hCase
      obtain ⟨hex, ⟨n, hctr, hn1, hn100, hcount⟩, hwle, hws, hgap, hadm⟩ := hCase
      subst hex
      have hwt : w ≤ t := le_trans hwle hle
      by_cases hlive : t < w + 60
      · have hread : tsRead st t = some w := by simp [tsRead, hts, hlive]
        have h60 : ¬(60 ≤ t - w) := by linarith
        have hctrLive : ctrLive st t = some (n, some (w + 60)) := by
          simp [ctrLive, hctr, hlive]
        have hincr : ctrIncr st t = ({ st with ctr := some (n + 1, some (w + 60)) }, n + 1) := by
          simp [ctrIncr, hctrLive]
        simp only [seqIter, hread, if_neg h60, hincr]
        by_cases hcap : n + 1 ≤ 100
        · rw [if_pos hcap]
          dsimp only
          refine ⟨?_, ?_, ?_⟩
          · intro e he
            rcases List.mem_append.mp he with h1 | h2
            · exact hTimes2 e h1
            · simp only [List.mem_cons, List.not_mem_nil, or_false] at h2
              subst h2
              exact le_refl t
          · intro W hW
            rw [isWindowStart_append] at hW
            rw [admitTimesIn_append, admitTimesIn_singleton_admitted]
            simp only [isWindowStart_singleton_admitted, Bool.or_false] at hW
            rcases hgap W hW with rfl | hfar
            · rw [if_pos ⟨hwt, hlive⟩]
              have := hAll W hW
              omega
            · rw [if_neg (by rintro ⟨hW1, hW2⟩; linarith)]
              simpa using hAll W hW
          · dsimp only [hts]
            rw [hts]
            refine ⟨rfl, ⟨n + 1, rfl, by omega, hcap, ?_⟩, hwt, ?_, ?_, ?_⟩
            · rw [admitTimesIn_append, admitTimesIn_singleton_admitted,
                if_pos ⟨hwt, hlive⟩]
              push_cast
              omega
            · rw [isWindowStart_append, hws]
              simp
            · intro W hW
              rw [isWindowStart_append] at hW
              simp only [isWindowStart_singleton_admitted, Bool.or_false] at hW
              exact hgap W hW
            · intro e he hadm2
              rcases List.mem_append.mp he with h1 | h2
              · exact hadm e h1 hadm2
              · simp only [List.mem_cons, List.not_mem_nil, or_false] at h2
                subst h2
                exact hlive
        · rw [if_neg hcap]
          have hdecr : ctrDecr { st with ctr := some (n + 1, some (w + 60)) } t
              = { st with ctr := some (n + 1 - 1, some (w + 60)) } := by
            simp [ctrDecr, ctrLive, hlive]
          have hn2 : n + 1 - 1 = n := by ring
          rw [hdecr, hn2]
          have hcurrent :
              (match ({ st with ctr := some (n, some (w + 60)) } : RStore).ts with
               | none => L = [] ∧ ({ st with ctr := some (n, some (w + 60)) } : RStore).ctr = none
               | some (w2, ex) =>
                   ex = w2 + 60
                   ∧ (∃ n2 : Int,
                       ({ st with ctr := some (n, some (w + 60)) } : RStore).ctr
                         = some (n2, some (w2 + 60)) ∧ 1 ≤ n2 ∧ n2 ≤ 100
                       ∧ (admitTimesIn L w2 : Int) = n2)
                   ∧ w2 ≤ t
                   ∧ isWindowStart L w2 = true
                   ∧ (∀ W, isWindowStart L W = true → W = w2 ∨ W + 60 ≤ w2)
                   ∧ (∀ e ∈ L, e.2 = CEvent.admitted → e.1 < w2 + 60)) := by
            rw [hts]
            exact ⟨rfl, ⟨n, rfl, hn1, hn100, hcount⟩, hwt, hws, hgap, hadm⟩
          by_cases hwait : 30 ≤ t - s
          · rw [if_pos hwait]
            refine ⟨?_, ?_, ?_⟩
            · intro e he
              rcases List.mem_append.mp he with h1 | h2
              · exact hTimes2 e h1
              · simp only [List.mem_cons, List.not_mem_nil, or_false] at h2
                subst h2
                exact le_refl t
            · intro W hW
              rw [isWindowStart_append] at hW
              simp only [isWindowStart_singleton_rejected, Bool.or_false] at hW
              rw [admitTimesIn_append, admitTimesIn_singleton_rejected]
              simpa using hAll W hW
            · rw [hts]
              refine ⟨rfl, ⟨n, rfl, hn1, hn100, ?_⟩, hwt, ?_, ?_, ?_⟩
              · rw [admitTimesIn_append, admitTimesIn_singleton_rejected]
                simpa using hcount
              · rw [isWindowStart_append, hws]
                simp
              · intro W hW
                rw [isWindowStart_append] at hW
                simp only [isWindowStart_singleton_rejected, Bool.or_false] at hW
                exact hgap W hW
              · intro e he hadm2
                rcases List.mem_append.mp he with h1 | h2
                · exact hadm e h1 hadm2
                · simp only [List.mem_cons, List.not_mem_nil, or_false] at h2
                  subst h2
                  simp at hadm2
          · rw [if_neg hwait]
            simp only [List.append_nil]
            exact ⟨hTimes2, hAll, hcurrent⟩
      · have hread : tsRead st t = none := by simp [tsRead, hts, hlive]
        have hfar : w + 60 ≤ t := not_lt.mp hlive
        have hOld : ∀ W, isWindowStart L W = true → W + 60 ≤ t := by
          intro W hW
          rcases hgap W hW with rfl | h2
          · exact hfar
          · linarith
        have hAdmLt : ∀ e ∈ L, e.2 = CEvent.admitted → e.1 < t :=
          fun e he h2 => lt_of_lt_of_le (hadm e he h2) hfar
        simp only [seqIter, hread]
        exact seqInv_reset L t st hTimes2 hAll hOld hAdmLt

end RateLimiter

namespace RateLimiter

/-- Lower bound on the time of the next event. -/
def headTimeLB (now : ℚ) : List (ℚ × ℚ) → Prop
  | [] => True
  | e :: _ => now ≤ e.1

/-- Folding the invariant through a sequential run with nondecreasing
iteration times. -/
theorem seqRun_inv (es : List (ℚ × ℚ)) :
    ∀ (st : RStore) (L : List (ℚ × CEvent)) (now : ℚ),
    SeqInv st L now →
    List.Chain' (fun a b => a.1 ≤ b.1) es →
    headTimeLB now es →
    ∃ now2, SeqInv (seqRun st L es).1 (seqRun st L es).2 now2 := by
  induction es with
  | nil =>
      intro st L now hinv _ _
      exact ⟨now, hinv⟩
  | cons e rest ih =>
      intro st L now hinv hchain hhead
      obtain ⟨t, s⟩ := e
      have hle : now ≤ t := hhead
      have hstep := seqInv_step st L now t s hinv hle
      simp only [seqRun]
      apply ih _ _ t hstep (List.Chain'.tail hchain)
      cases rest with
      | nil => trivial
      | cons r rs =>
          exact (List.chain'_cons.mp hchain).1

/-- Start-of-run invariant for the empty store and log. -/
theorem seqInv_init (now : ℚ) : SeqInv ⟨none, none⟩ [] now := by
  refine ⟨by simp, ?_, ⟨rfl, rfl⟩⟩
  intro W h
  simp [isWindowStart] at h

/-- C1 amended, part 1: in the sequential (non-interleaved) execution model,
for every window-start value `W` ever installed, at most 100 requests are
admitted within `[W, W + 60)`. -/
theorem c1_sequential_window_bound (es : List (ℚ × ℚ))
    (hmono : List.Chain' (fun a b => a.1 ≤ b.1) es) (W : ℚ)
    (hW : isWindowStart (seqRun ⟨none, none⟩ [] es).2 W = true) :
    admitTimesIn (seqRun ⟨none, none⟩ [] es).2 W ≤ 100 := by
  have hhead : headTimeLB ((es.head?.map Prod.fst).getD 0) es := by
    cases es with
    | nil => trivial
    | cons e rest => exact le_refl e.1
  obtain ⟨now2, hinv⟩ := seqRun_inv es ⟨none, none⟩ []
    ((es.head?.map Prod.fst).getD 0) (seqInv_init _) hmono hhead
  exact hinv.2.1 W hW

end RateLimiter

namespace RateLimiter

/-- A live counter read pins down the stored entry and its expiry bound. -/
theorem ctrLive_some_cases (st : RStore) (t : ℚ) (n : Int) (e : Option ℚ)
    (h : ctrLive st t = some (n, e)) :
    st.ctr = some (n, e) ∧ (∀ ex, e = some ex → t < ex) := by
  unfold ctrLive at h
  cases hc : st.ctr with
  | none =>
      rw [hc] at h
      exact absurd h (by simp)
  | some p =>
      obtain ⟨n2, e2⟩ := p
      rw [hc] at h
      cases e2 with
      | none =>
          simp only [Option.some_inj, Prod.mk.injEq] at h
          obtain ⟨rfl, rfl⟩ := h
          exact ⟨rfl, by intro ex hex; cases hex⟩
      | some ex =>
          dsimp only at h
          by_cases hx : t < ex
          · rw [if_pos hx] at h
            simp only [Option.some_inj, Prod.mk.injEq] at h
            obtain ⟨rfl, rfl⟩ := h
            refine ⟨rfl, ?_⟩
            intro ex2 hex2
            cases hex2
            exact hx
          · rw [if_neg hx] at h
            exact absurd h (by simp)

/-- C1 amended, part 2: an iteration that finds the window live and the
counter already at (or beyond) the limit decrements its speculative
increment back out (the counter value is unchanged), and either logs nothing
and re-evaluates after the retry sleep (`elapsed < MAX_WAIT`) or rejects
with a 503 whose Retry-After hint is bounded by the remaining window time
(`elapsed ≥ MAX_WAIT`). -/
theorem c1_over_limit_behavior (st : RStore) (t s w : ℚ) (n : Int) (e : Option ℚ)
    (hread : tsRead st t = some w) (h60 : ¬(60 ≤ t - w))
    (hlive : ctrLive st t = some (n, e)) (hcap : 100 ≤ n) :
    (seqIter st t s).1.ctr = some (n, e)
    ∧ (¬(30 ≤ t - s) → (seqIter st t s).2 = [])
    ∧ (30 ≤ t - s →
        (seqIter st t s).2
          = [(t, CEvent.rejected (Int.floor (min (60 - (t - w)) 10)))]
        ∧ ((Int.floor (min (60 - (t - w)) 10) : ℚ) ≤ 60 - (t - w))) := by
  obtain ⟨hstctr, hexlt⟩ := ctrLive_some_cases st t n e hlive
  have hincr : ctrIncr st t = ({ st with ctr := some (n + 1, e) }, n + 1) := by
    simp [ctrIncr, hlive]
  have hlive2 : ctrLive { st with ctr := some (n + 1, e) } t = some (n + 1, e) := by
    cases e with
    | none => rfl
    | some ex =>
        have := hexlt ex rfl
        simp [ctrLive, this]
  have hdecr : ctrDecr { st with ctr := some (n + 1, e) } t
      = { st with ctr := some (n + 1 - 1, e) } := by
    simp [ctrDecr, hlive2]
  have hn2 : n + 1 - 1 = n := by ring
  have hbound : (Int.floor (min ((60 : ℚ) - (t - w)) 10) : ℚ) ≤ 60 - (t - w) :=
    le_trans (Int.floor_le _) (min_le_left _ _)
  simp only [seqIter, hread, if_neg h60, hincr, if_neg (by omega : ¬(n + 1 ≤ 100)),
    hdecr, hn2]
  refine ⟨by split <;> rfl, ?_, ?_⟩
  · intro hwait
    rw [if_neg hwait]
  · intro hwait
    rw [if_pos hwait]
    exact ⟨rfl, hbound⟩

end RateLimiter

/-! ## Claim C1 -/

/-- C1 amended: provided each request's loop iteration executes atomically
against the store (the sequential model — no interleaving between the
window-start read and the counter update), the global admission gate admits
at most `limit` (100) requests within `[W, W + 60)` for every window-start
value `W` it ever installs; and a request that finds the counter at the
limit is decremented back out, re-evaluating after the fixed retry sleep
while elapsed wait is under `max_wait` (30 s), and once elapsed wait reaches
`max_wait` it is rejected with ServiceUnavailable carrying a Retry-After
hint bounded by the remaining window time.  (Under concurrent interleaving
the bound fails: see the counterexample.) -/
theorem c1_admission_amended :
    (∀ (es : List (ℚ × ℚ)), List.Chain' (fun a b => a.1 ≤ b.1) es →
      ∀ W, RateLimiter.isWindowStart (RateLimiter.seqRun ⟨none, none⟩ [] es).2 W = true →
        RateLimiter.admitTimesIn (RateLimiter.seqRun ⟨none, none⟩ [] es).2 W ≤ 100)
    ∧ (∀ (st : RateLimiter.RStore) (t s w : ℚ) (n : Int) (e : Option ℚ),
        RateLimiter.tsRead st t = some w → ¬(60 ≤ t - w) →
        RateLimiter.ctrLive st t = some (n, e) → 100 ≤ n →
        (RateLimiter.seqIter st t s).1.ctr = some (n, e)
        ∧ (¬(30 ≤ t - s) → (RateLimiter.seqIter st t s).2 = [])
        ∧ (30 ≤ t - s →
            (RateLimiter.seqIter st t s).2
              = [(t, RateLimiter.CEvent.rejected (Int.floor (min (60 - (t - w)) 10)))]
            ∧ ((Int.floor (min (60 - (t - w)) 10) : ℚ) ≤ 60 - (t - w)))) :=
  ⟨RateLimiter.c1_sequential_window_bound, RateLimiter.c1_over_limit_behavior⟩

/-- Witness for C1 amended: a two-request sequential run stays within the
bound, and an iteration at a full counter (100) leaves the counter at 100. -/
theorem c1_admission_amended_witness :
    RateLimiter.admitTimesIn
        (RateLimiter.seqRun ⟨none, none⟩ [] [((0 : ℚ), (0 : ℚ)), (1, 1)]).2 0 ≤ 100
    ∧ (RateLimiter.seqIter ⟨some (0, 60), some (100, some 60)⟩ 40 0).1.ctr
        = some (100, some 60) :=
  ⟨c1_admission_amended.1 [((0 : ℚ), (0 : ℚ)), (1, 1)] (by norm_num [List.chain'_cons]) 0
     (by with_unfolding_all decide),
   (c1_admission_amended.2 ⟨some (0, 60), some (100, some 60)⟩ 40 0 0 100 (some 60)
     (by with_unfolding_all decide) (by with_unfolding_all decide)
     (by with_unfolding_all decide) (by norm_num)).1⟩

/-! ## AdmissionController under concurrency (claim C1, counterexample)

The same `__call__` body with every `await`ed Redis round trip as a separate
atomic step, so that steps of different in-flight requests interleave — the
window reset is a `GET` followed by two `SET`s, not one atomic operation.
Each thread is one request; a scheduler entry `(tid, t)` runs thread `tid`'s
next atomic operation at wall-clock instant `t` (instants nondecreasing, as
wall clocks are).  `current_time` is captured at the loop top and reused for
the window comparison and as the value written by the window `SET`, exactly
as in the source. -/

namespace RateLimiter

/-- Program counter of one in-flight request, at `await` granularity of
`__call__`. -/
inductive TPc where
  | loopTop              -- about to read window_start
  | willSetTs (curT : ℚ) -- about to SET window_start := curT
  | willSetCtr (curT : ℚ) -- about to SET counter := 1
  | willIncr (curT w : ℚ) -- about to INCR (window read gave w, live)
  | willDecr (curT w : ℚ) -- about to DECR (speculative increment overshot)
  | done (o : RLOutcome)
  deriving Repr, DecidableEq

/-- One in-flight request: program counter plus its `start_time` (assigned
at its first step, as `start_time = time.time()` runs at call entry). -/
structure Thread where
  pc : TPc
  startTime : Option ℚ
  deriving Repr, DecidableEq

/-- One atomic operation of `__call__` executed at instant `t`. -/
def stepThread (st : RStore) (th : Thread) (t : ℚ) :
    RStore × Thread × List (ℚ × CEvent) :=
  let s := th.startTime.getD t
  match th.pc with
  | .loopTop =>
      match tsRead st t with
      | none => (st, ⟨.willSetTs t, some s⟩, [])
      | some w =>
          if 60 ≤ t - w then (st, ⟨.willSetTs t, some s⟩, [])
          else (st, ⟨.willIncr t w, some s⟩, [])
  | .willSetTs curT =>
      (tsWrite st curT t, ⟨.willSetCtr curT, some s⟩, [(t, .windowSet curT)])
  | .willSetCtr _ =>
      (ctrWrite1 st t, ⟨.done .admitOk, some s⟩, [(t, .admitted)])
  | .willIncr curT w =>
      if (ctrIncr st t).2 ≤ 100 then
        ((ctrIncr st t).1, ⟨.done .admitOk, some s⟩, [(t, .admitted)])
      else ((ctrIncr st t).1, ⟨.willDecr curT w, some s⟩, [])
  | .willDecr curT w =>
      if 30 ≤ t - s then
        (ctrDecr st t,
          ⟨.done (.reject (Int.floor (min (60 - (curT - w)) 10))), some s⟩,
          [(t, .rejected (Int.floor (min (60 - (curT - w)) 10)))])
      else (ctrDecr st t, ⟨.loopTop, some s⟩, [])
  | .done _ => (st, th, [])

/-- Shared store, threads, and the global admission log. -/
structure CState where
  store : RStore
  threads : List Thread
  log : List (ℚ × CEvent)
  deriving Repr, DecidableEq

/-- Run one scheduler entry: thread `tid`'s next atomic operation at `t`. -/
def cstep (c : CState) (tid : ℕ) (t : ℚ) : CState :=
  match c.threads[tid]? with
  | none => c
  | some th =>
      ⟨(stepThread c.store th t).1,
       c.threads.set tid (stepThread c.store th t).2.1,
       c.log ++ (stepThread c.store th t).2.2⟩

/-- Run a whole schedule. -/
def crun (c : CState) : List (ℕ × ℚ) → CState
  | [] => c
  | (tid, t) :: rest => crun (cstep c tid t) rest

/-- `n` concurrent requests against an empty store. -/
def initCState (n : ℕ) : CState :=
  ⟨⟨none, none⟩, List.replicate n ⟨.loopTop, none⟩, []⟩

/-- Wall-clock instants of a schedule are nondecreasing. -/
def schedTimesMonotone : List (ℕ × ℚ) → Bool
  | [] => true
  | [_] => true
  | a :: b :: rest => decide (a.2 ≤ b.2) && schedTimesMonotone (b :: rest)

/-- The racing schedule: thread 1 reads the absent window key at `t = 0` and
stalls; thread 0 completes the init (window 0, one admission); 99 further
threads admit through `INCR` at `t = 1`, filling the window to 100; then
thread 1 resumes its stale reset — `SET window_start 0`, `SET counter 1` —
and admits as the 101st request of window 0, all within `[0, 60)`. -/
def badSched : List (ℕ × ℚ) :=
  [(1, 0), (0, 0), (0, 0), (0, 0)]
    ++ (List.range 99).flatMap (fun i => [(i + 2, 1), (i + 2, 1)])
    ++ [(1, 2), (1, 2)]

end RateLimiter

set_option maxRecDepth 100000 in
/-- C1 counterexample: the claim — at most `limit` (100) requests admitted
per fixed 60-second window — is false once the non-atomic window reset
(`GET` then two `SET`s) interleaves with other requests: with 101 concurrent
requests and nondecreasing wall-clock instants, 101 requests are admitted in
the single window `[0, 60)` installed with window-start value 0. -/
theorem c1_counterexample :
    ¬ (∀ (n : ℕ) (sched : List (ℕ × ℚ)),
        RateLimiter.schedTimesMonotone sched = true →
        ∀ W, RateLimiter.isWindowStart
            (RateLimiter.crun (RateLimiter.initCState n) sched).log W = true →
          RateLimiter.admitTimesIn
            (RateLimiter.crun (RateLimiter.initCState n) sched).log W ≤ 100) := by
  intro hclaim
  have h := hclaim 101 RateLimiter.badSched (by with_unfolding_all decide) 0
    (by with_unfolding_all decide)
  have h101 : RateLimiter.admitTimesIn
      (RateLimiter.crun (RateLimiter.initCState 101) RateLimiter.badSched).log 0
        = 101 := by
    with_unfolding_all decide
  omega
